import Mathlib

/-!
Shallow embedding of the stock-data-tracker backend
(src/backend/database.py, src/backend/main.py, src/backend/scheduler.py)
and proofs about its synchronization engine.

Modelling conventions:
* calendar dates and datetimes are day numbers (`Int`); all timedelta
  arithmetic in the source uses whole days, so `datetime.now() - timedelta(daysVal k)`
  embeds as `now - k` and `.date()` comparisons coincide with `Int` comparisons;
* database reads that can raise are `Except Unit` values supplied as inputs
  (the caught-exception branch of the source is the `.error` case);
* Python `str.upper()` / `str.strip()` embed as `pyUpper` / `pyStrip` below,
  structural functions on the character list of a string (ASCII-faithful and
  kernel-computable);
* the tables behind asyncpg are explicit lists of rows inside `Database`.
-/

/-- Embedding of Python `str.upper()`: uppercase every character. -/
def pyUpper (s : String) : String :=
  ⟨s.data.map Char.toUpper⟩

/-- Embedding of Python `str.strip()`: drop whitespace from both ends. -/
def pyStrip (s : String) : String :=
  ⟨((s.data.dropWhile Char.isWhitespace).reverse.dropWhile Char.isWhitespace).reverse⟩

/-- Python-level exceptions distinguished by the handlers of the source. -/
inductive PyErr where
  | valueError : PyErr
  | attributeError : PyErr
  | exception : PyErr
deriving DecidableEq, Repr

/-- Row of the `stocks` table (columns used by the code: id, symbol, name). -/
structure StockRow where
  id : Nat
  symbol : String
  name : Option String
deriving DecidableEq, Repr

/-- Row of the `favorites` table (id, stock_id, added_at). -/
structure FavRow where
  id : Nat
  stockId : Nat
  addedAt : Nat
deriving DecidableEq, Repr

/-- Row of the `stock_prices` table. Prices are decimals (`Option ℚ`),
nullable per column as in the schema used by `save_stock_prices`. -/
structure PriceRow where
  stockId : Nat
  date : Int
  openPrice : Option ℚ
  highPrice : Option ℚ
  lowPrice : Option ℚ
  closePrice : Option ℚ
  volume : Option Int
deriving DecidableEq, Repr

/-- One bar as passed to `save_stock_prices` (`{date, open?, high?, low?, close?, volume?}`). -/
structure PriceBar where
  date : Int
  openPrice : Option ℚ
  highPrice : Option ℚ
  lowPrice : Option ℚ
  closePrice : Option ℚ
  volume : Option Int
deriving DecidableEq, Repr

/-- `FavoriteModel` as constructed by `add_favorite` (last_price stays None there). -/
structure FavoriteModelR where
  id : Nat
  stockId : Nat
  symbol : String
  name : Option String
  addedAt : Nat
deriving DecidableEq, Repr

/-- The persistent state owned by `DatabaseManager`: the three tables plus
id/timestamp generators standing for SERIAL columns and NOW(). -/
structure Database where
  stocks : List StockRow
  favorites : List FavRow
  prices : List PriceRow
  nextStockId : Nat
  nextFavId : Nat
  clock : Nat
deriving DecidableEq, Repr

/-- `DatabaseManager.get_or_create_stock`: reject empty/whitespace symbol
(`ValueError`), normalize with `.upper().strip()`, return the existing row
unchanged if present, else insert `(symbol, name)` and return the new row. -/
def get_or_create_stock (db : Database) (symbol : String) (name : Option String) :
    Except PyErr (StockRow × Database) :=
  if pyStrip symbol = "" then .error .valueError
  else
    let sym := pyStrip (pyUpper symbol)
    match db.stocks.find? (fun r => r.symbol = sym) with
    | some row => .ok (row, db)
    | none =>
        let row : StockRow := ⟨db.nextStockId, sym, name⟩
        .ok (row, { db with
                      stocks := db.stocks ++ [row],
                      nextStockId := db.nextStockId + 1 })

/-- `DatabaseManager.add_favorite`: ensure the stock exists, INSERT INTO
favorites (stock_id); on unique violation re-fetch the favorite joined with
its stock, looking the stock up by `symbol.upper()` (note: not stripped),
raising if that join row is absent. -/
def add_favorite (db : Database) (symbol : String) (name : Option String) :
    Except PyErr (FavoriteModelR × Database) :=
  match get_or_create_stock db symbol name with
  | .error e => .error e
  | .ok (stock, db1) =>
      if db1.favorites.any (fun f => f.stockId = stock.id) then
        -- asyncpg.UniqueViolationError branch
        match db1.stocks.find? (fun s => s.symbol = pyUpper symbol) with
        | none => .error .exception
        | some s =>
            match db1.favorites.find? (fun f => f.stockId = s.id) with
            | none => .error .exception
            | some f => .ok (⟨f.id, f.stockId, s.symbol, s.name, f.addedAt⟩, db1)
      else
        let row : FavRow := ⟨db1.nextFavId, stock.id, db1.clock⟩
        .ok (⟨row.id, row.stockId, stock.symbol, stock.name, row.addedAt⟩,
             { db1 with
                 favorites := db1.favorites ++ [row],
                 nextFavId := db1.nextFavId + 1,
                 clock := db1.clock + 1 })

/-- `StockDataScheduler.get_last_price_date`: on a successful read, the day
after MAX(date) when bars exist, else `now - 30` days; on a read failure
(caught exception) fall back to `now - 7` days. -/
def get_last_price_date (lastDateRead : Except Unit (Option Int)) (now : Int) : Int :=
  match lastDateRead with
  | .error _ => now - 7
  | .ok (some d) => d + 1
  | .ok none => now - 30

/-- The per-symbol fetch window computed inside `fetch_incremental_stock_data`:
start from `get_last_price_date`, end fixed to yesterday (`now - 1`). -/
def fetchWindow (lastDateRead : Except Unit (Option Int)) (now : Int) : Int × Int :=
  (get_last_price_date lastDateRead now, now - 1)

/-- The methods defined on `class AlpacaDataClient` in src/backend/main.py. -/
def alpacaClientMethods : List String :=
  ["__init__", "get_daily_stock_data", "search_symbols"]

/-- Per-symbol sub-result dictionary returned by `fetch_incremental_stock_data`
(keys that a given branch omits are `none`). -/
structure SymbolResult where
  symbol : String
  success : Bool
  newRecords : Option Nat
  errMsg : Option String
  message : Option String
  dateRange : Option (Int × Int)
deriving DecidableEq, Repr

/-- `StockDataScheduler.fetch_incremental_stock_data` for one symbol.
Inputs: whether `self.alpaca_client` is set, the outcome of the
`get_last_price_date` read, and `now`. Output: the sub-result dictionary
paired with whether the provider client was actually invoked.
The attribute lookup `self.alpaca_client.get_daily_stock_data_range` is
resolved against `alpacaClientMethods`; an absent attribute raises
`AttributeError`, caught by the enclosing handler into a failure dict. -/
def fetch_incremental_stock_data (clientInit : Bool)
    (lastDateRead : Except Unit (Option Int)) (now : Int) (symbol : String) :
    SymbolResult × Bool :=
  if ¬clientInit then
    (⟨symbol, false, none, some "Client not initialized", none, none⟩, false)
  else
    let startDate := get_last_price_date lastDateRead now
    let endDate := now - 1
    if endDate < startDate then
      (⟨symbol, true, some 0, none, some "Already up to date", none⟩, false)
    else if "get_daily_stock_data_range" ∈ alpacaClientMethods then
      -- unreachable: main.py defines no such method, so no source body exists
      (⟨symbol, true, some 0, none, none, some (startDate, endDate)⟩, true)
    else
      (⟨symbol, false, none, some "AttributeError", none, none⟩, false)

/-- The summary dictionary built by `update_favorite_stocks` (the empty-favorites
early return carries processed=0, failed=0, symbols=[], total_new_records=0). -/
structure Summary where
  processed : Nat
  failed : Nat
  totalSymbols : Nat
  symbols : List String
  failedSymbols : List String
  totalNewRecords : Nat
  results : List SymbolResult
deriving DecidableEq, Repr

/-- The body of the per-symbol loop in `update_favorite_stocks`: fetch, append
the sub-result, and bump either the success or the failure counters. -/
def updateStep (fetch : String → SymbolResult) (acc : Summary) (sym : String) : Summary :=
  let r := fetch sym
  if r.success then
    { acc with
        processed := acc.processed + 1,
        totalNewRecords := acc.totalNewRecords + r.newRecords.getD 0,
        results := acc.results ++ [r] }
  else
    { acc with
        failed := acc.failed + 1,
        failedSymbols := acc.failedSymbols ++ [sym],
        results := acc.results ++ [r] }

/-- `StockDataScheduler.update_favorite_stocks`: empty favorite set returns
the immediate zero summary; otherwise each symbol is processed sequentially
through the per-symbol fetch, counting successes/failures and accumulating
new-record totals and sub-results. -/
def update_favorite_stocks (favs : List String) (fetch : String → SymbolResult) : Summary :=
  if favs = [] then ⟨0, 0, 0, [], [], 0, []⟩
  else favs.foldl (updateStep fetch) ⟨0, 0, favs.length, favs, [], 0, []⟩

/-- The status computation in `run_scheduler` (lines 242-247): zero failures
gives "completed", otherwise "partial_success" when anything succeeded,
else "failed". -/
def determineRunStatus (s : Summary) : String :=
  if s.failed = 0 then "completed"
  else if 0 < s.processed then "partial_success"
  else "failed"

/-- A `scheduler_logs` row written by `log_scheduler_run`. -/
structure RunRecord where
  jobType : String
  status : String
  result : Summary
deriving DecidableEq, Repr

/-- One iteration of the `run_scheduler` loop body (without the sleeps):
if `should_run_update` answered true, run the update, determine the status
and append the "daily_update" log record; otherwise leave the log alone. -/
def run_scheduler_pass (shouldRun : Bool) (favs : List String)
    (fetch : String → SymbolResult) (log : List RunRecord) : List RunRecord :=
  if shouldRun then
    let result := update_favorite_stocks favs fetch
    log ++ [⟨"daily_update", determineRunStatus result, result⟩]
  else log

/-- `StockDataScheduler.run_manual_update`: error dict when the client is
not initialized; otherwise run the update and log a "manual_update" record
whose status is the literal "completed", returning the summary. -/
def run_manual_update (clientInit : Bool) (favs : List String)
    (fetch : String → SymbolResult) (log : List RunRecord) :
    Except String Summary × List RunRecord :=
  if ¬clientInit then (.error "Alpaca client not initialized", log)
  else
    let result := update_favorite_stocks favs fetch
    (.ok result, log ++ [⟨"manual_update", "completed", result⟩])

/-- The (stock_id, date) key of the stock_prices unique constraint. -/
def priceKey (r : PriceRow) : Nat × Int :=
  (r.stockId, r.date)

/-- The row written for one bar by `save_stock_prices`
(INSERT ... VALUES (stock_id, date, open, high, low, close, volume)). -/
def toPriceRow (sid : Nat) (b : PriceBar) : PriceRow :=
  ⟨sid, b.date, b.openPrice, b.highPrice, b.lowPrice, b.closePrice, b.volume⟩

/-- `INSERT ... ON CONFLICT (stock_id, date) DO UPDATE SET ...`: replace the
row with the conflicting key if one exists, else append the new row. -/
def upsertPriceRow (l : List PriceRow) (row : PriceRow) : List PriceRow :=
  if l.any (fun r => priceKey r = priceKey row) then
    l.map (fun r => if priceKey r = priceKey row then row else r)
  else l ++ [row]

/-- Lookup of the stock_prices row with a given (stock_id, date) key. -/
def findPrice (l : List PriceRow) (sid : Nat) (d : Int) : Option PriceRow :=
  l.find? (fun r => priceKey r = (sid, d))

/-- The per-bar loop of `save_stock_prices` over index-numbered bars:
a bar whose execute raises (per the failure oracle `failAt`) is logged and
skipped; a successful write upserts the row and bumps `saved_count`. -/
def savePricesLoop (sid : Nat) (failAt : Nat → Bool) (bars : List (Nat × PriceBar))
    (st : List PriceRow × Nat) : List PriceRow × Nat :=
  bars.foldl (fun st p =>
    if failAt p.1 then st
    else (upsertPriceRow st.1 (toPriceRow sid p.2), st.2 + 1)) st

/-- `DatabaseManager.save_stock_prices`: return 0 for an empty symbol or an
empty batch; otherwise resolve the stock via `get_or_create_stock` (a failure
there is caught into `(db, 0)`) and run the per-bar upsert loop. -/
def save_stock_prices (db : Database) (symbol : String) (priceData : List PriceBar)
    (failAt : Nat → Bool) : Database × Nat :=
  if pyStrip symbol = "" ∨ priceData = [] then (db, 0)
  else
    match get_or_create_stock db symbol none with
    | .error _ => (db, 0)
    | .ok (stock, db1) =>
        let res := savePricesLoop stock.id failAt priceData.enum (db1.prices, 0)
        ({ db1 with prices := res.1 }, res.2)

/-- The last element of a list satisfying a predicate (used to state which
bar holds the values for a key after a batch upsert). -/
def lastMatch {α : Type} (l : List α) (q : α → Bool) : Option α :=
  l.foldl (fun acc a => if q a then some a else acc) none

/-- `StockDataScheduler.should_run_update`: false on Saturday/Sunday
(`weekday > 4`); otherwise count the current-day "daily_update" runs with status in
("completed", "partial_success") — positive count means skip, a read failure
means run anyway. -/
def should_run_update (weekday : Fin 7) (todayRuns : Except Unit Nat) : Bool :=
  if 4 < weekday.val then false
  else
    match todayRuns with
    | .error _ => true
    | .ok n => if 0 < n then false else true

/-- Concrete database used to exercise `save_stock_prices`: one stock ACME
with one cached bar on day 5 (close 1). -/
def sampleDb : Database :=
  ⟨[⟨0, "ACME", none⟩], [], [⟨0, 5, none, none, none, some 1, some 10⟩], 1, 0, 0⟩

/-- Concrete batch for `save_stock_prices`: a replacement for day 5, a bar
for day 6 (whose write will fail), and a new bar for day 7. -/
def sampleBars : List PriceBar :=
  [⟨5, none, none, none, some 2, some 20⟩,
   ⟨6, none, none, none, some 3, some 30⟩,
   ⟨7, none, none, none, some 4, some 40⟩]

/-- The uniqueness invariant of the stock_prices table: at most one row per
(stock_id, date) key. -/
def PairwiseKeys (l : List PriceRow) : Prop :=
  l.Pairwise (fun a b => priceKey a ≠ priceKey b)

/-! ## Helper lemmas -/

lemma updateFoldlCounts (fetch : String → SymbolResult) (favs : List String)
    (acc : Summary) :
    (favs.foldl (updateStep fetch) acc).processed
        = acc.processed + favs.countP (fun s => (fetch s).success)
    ∧ (favs.foldl (updateStep fetch) acc).failed
        = acc.failed + favs.countP (fun s => !(fetch s).success) := by
  induction favs generalizing acc with
  | nil => simp
  | cons sym t ih =>
      simp only [List.foldl_cons, List.countP_cons]
      rcases ih (updateStep fetch acc sym) with ⟨hp, hf⟩
      by_cases h : (fetch sym).success
      · constructor
        · rw [hp]; simp [updateStep, h]; omega
        · rw [hf]; simp [updateStep, h]
      · constructor
        · rw [hp]; simp [updateStep, h]
        · rw [hf]; simp [updateStep, h]; omega

lemma update_processed (favs : List String) (fetch : String → SymbolResult) :
    (update_favorite_stocks favs fetch).processed
      = favs.countP (fun s => (fetch s).success) := by
  unfold update_favorite_stocks
  by_cases h : favs = []
  · subst h; simp
  · simp only [h, if_false]
    rw [(updateFoldlCounts fetch favs _).1]
    simp

lemma update_failed (favs : List String) (fetch : String → SymbolResult) :
    (update_favorite_stocks favs fetch).failed
      = favs.countP (fun s => !(fetch s).success) := by
  unfold update_favorite_stocks
  by_cases h : favs = []
  · subst h; simp
  · simp only [h, if_false]
    rw [(updateFoldlCounts fetch favs _).2]
    simp

/-! ## Claim theorems -/

/-- C4: the Sync Planner window is [D+1, yesterday] when the latest cached bar
date is D; [now-30, now-1] (a span of exactly 30 days ending yesterday) when no
bars are cached; and [now-7, now-1] (the last 7 days) when the cache read
fails, instead of propagating the error. -/
theorem c4_planner_window (now D : Int) :
    fetchWindow (.ok (some D)) now = (D + 1, now - 1)
    ∧ fetchWindow (.ok none) now = (now - 30, now - 1)
    ∧ (now - 1) - (now - 30) + 1 = 30
    ∧ fetchWindow (.error ()) now = (now - 7, now - 1)
    ∧ (now - 1) - (now - 7) + 1 = 7 :=
  ⟨rfl, rfl, by ring, rfl, by ring⟩

/-- C10: for a symbol whose Instrument already exists, `get_or_create_stock`
returns the stored row unchanged (name included) and leaves the database
untouched; the supplied name argument is not used. -/
theorem c10_get_or_create_frame (db : Database) (symbol : String)
    (name : Option String) (row : StockRow)
    (hne : pyStrip symbol ≠ "")
    (hfind : db.stocks.find? (fun r => r.symbol = pyStrip (pyUpper symbol)) = some row) :
    get_or_create_stock db symbol name = .ok (row, db) := by
  unfold get_or_create_stock
  simp [hne, hfind]

/-- Witness for C10: an existing stock AAPL is returned as stored, with the
differing name argument ignored and the database unchanged. -/
theorem c10_witness :
    get_or_create_stock ⟨[⟨0, "AAPL", some "Apple"⟩], [], [], 1, 0, 0⟩ "aapl"
        (some "Orange")
      = .ok (⟨0, "AAPL", some "Apple"⟩, ⟨[⟨0, "AAPL", some "Apple"⟩], [], [], 1, 0, 0⟩) :=
  c10_get_or_create_frame _ "aapl" (some "Orange") _ (by decide) (by decide)

/-- C9: on a weekday, a failure of the same-day run-history read makes
`should_run_update` answer true — the gate is fail-open on that error. -/
theorem c9_fail_open (w : Fin 7) (hw : w.val ≤ 4) :
    should_run_update w (.error ()) = true := by
  unfold should_run_update
  simp [Nat.not_lt.mpr hw]

/-- Witness for C9: Monday (weekday 0) with a failing history read runs. -/
theorem c9_witness : should_run_update 0 (.error ()) = true :=
  c9_fail_open 0 (by decide)

/-- C6: `should_run_update` is false on Saturday/Sunday regardless of run
history; false when a qualifying run is already recorded today; true on a
weekday with no qualifying run recorded. -/
theorem c6_should_run (w : Fin 7) (db : Except Unit Nat) (n : Nat) :
    ((w = 5 ∨ w = 6) → should_run_update w db = false)
    ∧ (w.val ≤ 4 → 0 < n → should_run_update w (.ok n) = false)
    ∧ (w.val ≤ 4 → n = 0 → should_run_update w (.ok n) = true) := by
  refine ⟨?_, ?_, ?_⟩ <;> unfold should_run_update
  · rintro (rfl | rfl) <;> rw [if_pos (by decide)]
  · intro hw hn
    rw [if_neg (Nat.not_lt.mpr hw)]
    simp [hn]
  · intro hw hn
    subst hn
    rw [if_neg (Nat.not_lt.mpr hw)]
    simp

/-- Witness for C6: Saturday is gated even with no run recorded, a recorded
run gates a Monday, and a clean Monday runs. -/
theorem c6_witness :
    should_run_update 5 (.ok 0) = false
    ∧ should_run_update 0 (.ok 3) = false
    ∧ should_run_update 0 (.ok 0) = true :=
  ⟨(c6_should_run 5 (.ok 0) 0).1 (Or.inl rfl),
   (c6_should_run 0 (.ok 3) 3).2.1 (by decide) (by decide),
   (c6_should_run 0 (.ok 0) 0).2.2 (by decide) rfl⟩

/-- C5: when the planned window has start strictly after end, the per-symbol
sync returns the successful "Already up to date" sub-result with zero new
records and the provider client is never invoked. -/
theorem c5_short_circuit (lastDateRead : Except Unit (Option Int)) (now : Int)
    (symbol : String)
    (h : now - 1 < get_last_price_date lastDateRead now) :
    fetch_incremental_stock_data true lastDateRead now symbol
      = (⟨symbol, true, some 0, none, some "Already up to date", none⟩, false) := by
  unfold fetch_incremental_stock_data
  simp [h]

/-- Witness for C5: latest cached bar is day 9 and now is day 10, so the
window [10, 9] is empty and the symbol is reported already current. -/
theorem c5_witness :
    fetch_incremental_stock_data true (.ok (some 9)) 10 "ACME"
      = (⟨"ACME", true, some 0, none, some "Already up to date", none⟩, false) :=
  c5_short_circuit (.ok (some 9)) 10 "ACME" (by decide)

/-- C1: the incremental sync cannot fetch the planned range at all — the
scheduler invokes `get_daily_stock_data_range`, which is not among the
methods of `AlpacaDataClient` in main.py, so the call raises AttributeError
and the per-symbol sync fails without fetching or caching anything. Concrete
failing input (days numbered from 2024-01-01 = 0): symbol ACME with bars
cached through 2024-01-10 (day 9), synced on 2024-01-15 (day 14), so the
planned window [day 10, day 13] = [2024-01-11, 2024-01-14] is non-empty. -/
theorem c1_missing_range_method :
    "get_daily_stock_data_range" ∉ alpacaClientMethods
    ∧ fetch_incremental_stock_data true (.ok (some 9)) 14 "ACME"
        = (⟨"ACME", false, none, some "AttributeError", none, none⟩, false) := by
  exact ⟨by decide, rfl⟩

/-- Counterexample to C3: a manual invocation whose only symbol fails has
aggregate status "failed", yet `run_manual_update` logs the RunRecord with
the fixed status "completed" (and consults no eligibility predicate). -/
theorem c3_counterexample :
    determineRunStatus (update_favorite_stocks ["ACME"]
        (fun s => ⟨s, false, none, some "ProviderUnavailable", none, none⟩)) = "failed"
    ∧ (run_manual_update true ["ACME"]
          (fun s => ⟨s, false, none, some "ProviderUnavailable", none, none⟩) []).2
        = [⟨"manual_update", "completed",
            update_favorite_stocks ["ACME"]
              (fun s => ⟨s, false, none, some "ProviderUnavailable", none, none⟩)⟩] := by
  exact ⟨rfl, rfl⟩

/-- C3 amended: `run_manual_update` bypasses the polling wait AND the
eligibility predicate — whenever the client is initialized it runs the update
unconditionally (for any favorites, fetch outcomes and prior log) and appends
a "manual_update" RunRecord whose status is the literal "completed",
independent of the aggregate outcome of the run. -/
theorem c3_manual_update_amended (favs : List String)
    (fetch : String → SymbolResult) (log : List RunRecord) :
    run_manual_update true favs fetch log
      = (.ok (update_favorite_stocks favs fetch),
         log ++ [⟨"manual_update", "completed", update_favorite_stocks favs fetch⟩]) :=
  rfl

/-- Counterexample to C2: with an empty favorite set the pass still records a
"daily_update" run with status "completed" and the zero summary, although the
claim requires status "completed" only when the favorite set is non-empty. -/
theorem c2_counterexample :
    run_scheduler_pass true [] (fun s => ⟨s, true, some 0, none, none, none⟩) []
      = [⟨"daily_update", "completed", ⟨0, 0, 0, [], [], 0, []⟩⟩] :=
  rfl

/-- C2 amended: the recorded status is "completed" iff there are zero
per-symbol failures (the empty favorite set included), "failed" iff there are
zero successes and at least one failure, and "partial_success" iff successes
and failures are mixed; the empty favorite set yields the immediate zero
summary {processed := 0, failed := 0}. -/
theorem c2_status_amended (favs : List String) (fetch : String → SymbolResult) :
    ((update_favorite_stocks favs fetch).processed
        = favs.countP (fun x => (fetch x).success)
      ∧ (update_favorite_stocks favs fetch).failed
        = favs.countP (fun x => !(fetch x).success))
    ∧ (determineRunStatus (update_favorite_stocks favs fetch) = "completed"
        ↔ (update_favorite_stocks favs fetch).failed = 0)
    ∧ (determineRunStatus (update_favorite_stocks favs fetch) = "failed"
        ↔ ((update_favorite_stocks favs fetch).processed = 0
            ∧ 0 < (update_favorite_stocks favs fetch).failed))
    ∧ (determineRunStatus (update_favorite_stocks favs fetch) = "partial_success"
        ↔ (0 < (update_favorite_stocks favs fetch).processed
            ∧ 0 < (update_favorite_stocks favs fetch).failed))
    ∧ (favs = [] → update_favorite_stocks favs fetch = ⟨0, 0, 0, [], [], 0, []⟩) := by
  refine ⟨⟨update_processed favs fetch, update_failed favs fetch⟩, ?_, ?_, ?_, ?_⟩
  · unfold determineRunStatus
    by_cases hf : (update_favorite_stocks favs fetch).failed = 0
    · simp [hf]
    · by_cases hp : 0 < (update_favorite_stocks favs fetch).processed <;> simp [hf, hp]
  · unfold determineRunStatus
    by_cases hf : (update_favorite_stocks favs fetch).failed = 0
    · simp [hf]
    · by_cases hp : 0 < (update_favorite_stocks favs fetch).processed
      · simp [hf, hp]
        omega
      · simp [hf, hp]
        omega
  · unfold determineRunStatus
    by_cases hf : (update_favorite_stocks favs fetch).failed = 0
    · simp [hf]
    · by_cases hp : 0 < (update_favorite_stocks favs fetch).processed
      · simp [hf, hp]
        omega
      · simp [hf, hp]
  · intro h
    subst h
    rfl

/-- Witness for the amended C2: a mixed run over two symbols where exactly
the second fails is classified "partial_success", and the empty favorite set
produces the immediate zero summary. -/
theorem c2_status_witness :
    determineRunStatus (update_favorite_stocks ["A", "B"]
        (fun s => ⟨s, s = "A", some 1, none, none, none⟩)) = "partial_success"
    ∧ update_favorite_stocks [] (fun s => ⟨s, true, some 1, none, none, none⟩)
        = ⟨0, 0, 0, [], [], 0, []⟩ :=
  ⟨(c2_status_amended ["A", "B"] _).2.2.2.1.mpr (by decide),
   (c2_status_amended [] _).2.2.2.2 rfl⟩

lemma findAppendNone {α : Type} (p : α → Bool) (l₁ l₂ : List α)
    (h : l₁.find? p = none) : (l₁ ++ l₂).find? p = l₂.find? p := by
  simp [List.find?_append, h]

lemma countPKeyOne {α κ : Type} [DecidableEq κ] (key : α → κ) (l : List α) (x : α)
    (hnd : l.Pairwise (fun a b => key a ≠ key b)) (hx : x ∈ l) :
    l.countP (fun y => key y = key x) = 1 := by
  induction l with
  | nil => cases hx
  | cons a t ih =>
      rcases List.pairwise_cons.mp hnd with ⟨ha, ht⟩
      rw [List.countP_cons]
      rcases List.mem_cons.mp hx with rfl | hx
      · have h0 : t.countP (fun y => key y = key x) = 0 :=
          List.countP_eq_zero.mpr (fun b hb => by
            simp only [decide_eq_true_eq]
            exact fun hh => (ha b hb) hh.symm)
        simp [h0]
      · have hne : ¬(key a = key x) := ha x hx
        simp [ih ht hx, hne]

/-- Counterexample to C8: starting from an empty database, adding the
favorite " AAPL" (leading space) succeeds, but the second identical call
raises: the stock was stored under the stripped symbol "AAPL", while the
unique-violation re-fetch looks it up by `symbol.upper()` without stripping,
finds nothing and raises instead of returning the existing Favorite. -/
theorem c8_counterexample :
    add_favorite ⟨[], [], [], 0, 0, 0⟩ " AAPL" none
      = .ok (⟨0, 0, "AAPL", none, 0⟩, ⟨[⟨0, "AAPL", none⟩], [⟨0, 0, 0⟩], [], 1, 1, 1⟩)
    ∧ add_favorite ⟨[⟨0, "AAPL", none⟩], [⟨0, 0, 0⟩], [], 1, 1, 1⟩ " AAPL" none
      = .error .exception := by
  exact ⟨rfl, rfl⟩

/-- C8 amended: adding a favorite is idempotent for symbols with no
surrounding whitespace (upper-casing the symbol leaves it stripped): two
calls leave exactly one Favorite row for the instrument, the second call
returns the same record without error, and the database is unchanged by the
second call. For symbols needing stripping the second call raises (see the
counterexample). -/
theorem c8_add_favorite_amended (db : Database) (symbol : String)
    (name name2 : Option String)
    (ht : pyStrip (pyUpper symbol) = pyUpper symbol)
    (hne : pyStrip symbol ≠ "")
    (hnodup : db.favorites.Pairwise (fun a b => a.stockId ≠ b.stockId))
    (hfresh : ∀ f ∈ db.favorites, f.stockId < db.nextStockId) :
    ∃ fav db1,
      add_favorite db symbol name = .ok (fav, db1)
      ∧ add_favorite db1 symbol name2 = .ok (fav, db1)
      ∧ db1.favorites.countP (fun f => f.stockId = fav.stockId) = 1 := by
  cases hfind : db.stocks.find? (fun r => r.symbol = pyUpper symbol) with
  | some s0 =>
      by_cases h2 : db.favorites.any (fun f => f.stockId = s0.id) = true
      · -- the favorite already exists: both calls take the re-fetch branch
        have hsome : (db.favorites.find? (fun f => f.stockId = s0.id)).isSome := by
          rw [List.find?_isSome]
          simpa using List.any_eq_true.mp h2
        obtain ⟨f, hf⟩ := Option.isSome_iff_exists.mp hsome
        refine ⟨⟨f.id, f.stockId, s0.symbol, s0.name, f.addedAt⟩, db, ?_, ?_, ?_⟩
        · simp [add_favorite, get_or_create_stock, ht, if_neg hne, hfind, h2, hf]
        · simp [add_favorite, get_or_create_stock, ht, if_neg hne, hfind, h2, hf]
        · have hp : f.stockId = s0.id := by
            have := List.find?_some hf
            simpa using this
          have hmem : f ∈ db.favorites := List.mem_of_find?_eq_some hf
          simpa using countPKeyOne (fun g : FavRow => g.stockId) db.favorites f hnodup hmem
      · -- no favorite row yet: the first call inserts, the second re-fetches it
        have h2f : db.favorites.any (fun f => f.stockId = s0.id) = false :=
          Bool.not_eq_true _ ▸ eq_false_of_ne_true h2
        have h2n : db.favorites.find? (fun f => f.stockId = s0.id) = none :=
          List.find?_eq_none.mpr (fun a ha => by
            have := List.any_eq_false.mp h2f a ha
            simpa using this)
        refine ⟨⟨db.nextFavId, s0.id, s0.symbol, s0.name, db.clock⟩,
                { db with
                    favorites := db.favorites ++ [⟨db.nextFavId, s0.id, db.clock⟩],
                    nextFavId := db.nextFavId + 1,
                    clock := db.clock + 1 }, ?_, ?_, ?_⟩
        · simp [add_favorite, get_or_create_stock, ht, if_neg hne, hfind, h2f]
        · simp [add_favorite, get_or_create_stock, ht, if_neg hne, hfind, h2f,
                List.any_append, findAppendNone _ _ _ h2n]
        · rw [List.countP_append]
          have h0 : db.favorites.countP (fun f => f.stockId = s0.id) = 0 :=
            List.countP_eq_zero.mpr (fun a ha => by
              have := List.any_eq_false.mp h2f a ha
              simpa using this)
          simp [h0]
  | none =>
      -- the stock is created first; no favorite can reference its fresh id
      have hany : db.favorites.any (fun f => f.stockId = db.nextStockId) = false :=
        List.any_eq_false.mpr (fun a ha => by
          simpa using Nat.ne_of_lt (hfresh a ha))
      have hnone : db.favorites.find? (fun f => f.stockId = db.nextStockId) = none :=
        List.find?_eq_none.mpr (fun a ha => by
          simpa using Nat.ne_of_lt (hfresh a ha))
      refine ⟨⟨db.nextFavId, db.nextStockId, pyUpper symbol, name, db.clock⟩,
              { db with
                  stocks := db.stocks ++ [⟨db.nextStockId, pyUpper symbol, name⟩],
                  nextStockId := db.nextStockId + 1,
                  favorites := db.favorites ++ [⟨db.nextFavId, db.nextStockId, db.clock⟩],
                  nextFavId := db.nextFavId + 1,
                  clock := db.clock + 1 }, ?_, ?_, ?_⟩
      · simp [add_favorite, get_or_create_stock, ht, if_neg hne, hfind, hany]
      · simp [add_favorite, get_or_create_stock, ht, if_neg hne, hfind, hany,
              List.any_append, findAppendNone _ _ _ hnone, findAppendNone _ _ _ hfind]
      · rw [List.countP_append]
        have h0 : db.favorites.countP (fun f => f.stockId = db.nextStockId) = 0 :=
          List.countP_eq_zero.mpr (fun a ha => by
            simpa using Nat.ne_of_lt (hfresh a ha))
        simp [h0]

/-- Witness for the amended C8: adding AAPL twice to an empty database yields
one Favorite row, and the second call returns the same record without error. -/
theorem c8_witness :
    ∃ fav db1,
      add_favorite ⟨[], [], [], 0, 0, 0⟩ "AAPL" (some "Apple") = .ok (fav, db1)
      ∧ add_favorite db1 "AAPL" (some "Apple Inc") = .ok (fav, db1)
      ∧ db1.favorites.countP (fun f => f.stockId = fav.stockId) = 1 :=
  c8_add_favorite_amended ⟨[], [], [], 0, 0, 0⟩ "AAPL" (some "Apple") (some "Apple Inc")
    (by decide) (by decide) (by simp) (by simp)

lemma priceKeyReplace (row r : PriceRow) :
    priceKey (if priceKey r = priceKey row then row else r) = priceKey r := by
  by_cases h : priceKey r = priceKey row <;> simp [h]

lemma findMapReplace (l : List PriceRow) (row : PriceRow) (sid : Nat) (d : Int) :
    (l.map (fun r => if priceKey r = priceKey row then row else r)).find?
        (fun r => priceKey r = (sid, d)) =
      if (sid, d) = priceKey row then
        (if l.any (fun r => priceKey r = priceKey row) then some row else none)
      else l.find? (fun r => priceKey r = (sid, d)) := by
  induction l with
  | nil => by_cases h : (sid, d) = priceKey row <;> simp [h]
  | cons a t ih =>
      simp only [List.map_cons, List.find?_cons, List.any_cons]
      by_cases ka : priceKey a = priceKey row
      · rw [if_pos ka]
        by_cases hq : (sid, d) = priceKey row
        · simp [ka, hq.symm]
        · have hka : ¬(priceKey a = (sid, d)) := fun hh => hq (ka.symm.trans hh).symm
          have hkr : ¬(priceKey row = (sid, d)) := fun hh => hq hh.symm
          simp [hka, hkr, ka, hq, ih]
      · rw [if_neg ka]
        by_cases ha : priceKey a = (sid, d)
        · have hq : ¬((sid, d) = priceKey row) := fun hh => ka (ha.trans hh)
          simp [ha, hq]
        · simp [ha, ka, ih]

lemma upsertFind (l : List PriceRow) (row : PriceRow) (sid : Nat) (d : Int) :
    findPrice (upsertPriceRow l row) sid d =
      if (sid, d) = priceKey row then some row else findPrice l sid d := by
  unfold upsertPriceRow findPrice
  by_cases hany : l.any (fun r => priceKey r = priceKey row) = true
  · rw [if_pos hany, findMapReplace]
    by_cases hq : (sid, d) = priceKey row <;> simp [hq, hany]
  · have hany' : l.any (fun r => priceKey r = priceKey row) = false :=
      eq_false_of_ne_true hany
    rw [if_neg hany]
    by_cases hq : (sid, d) = priceKey row
    · have hn : l.find? (fun r => priceKey r = (sid, d)) = none :=
        List.find?_eq_none.mpr (fun a ha => by
          have h1 := List.any_eq_false.mp hany' a ha
          simp only [decide_eq_true_eq] at h1 ⊢
          rw [hq]
          exact h1)
      rw [findAppendNone _ _ _ hn]
      simp [hq.symm]
    · have hr : ¬(priceKey row = (sid, d)) := fun hh => hq hh.symm
      rw [List.find?_append]
      simp [hq, hr]

lemma upsertNodup (l : List PriceRow) (row : PriceRow) (h : PairwiseKeys l) :
    PairwiseKeys (upsertPriceRow l row) := by
  unfold PairwiseKeys at *
  unfold upsertPriceRow
  by_cases hany : l.any (fun r => priceKey r = priceKey row) = true
  · rw [if_pos hany, List.pairwise_map]
    exact h.imp (fun hab => by rw [priceKeyReplace, priceKeyReplace]; exact hab)
  · have hany' : l.any (fun r => priceKey r = priceKey row) = false :=
      eq_false_of_ne_true hany
    rw [if_neg hany, List.pairwise_append]
    refine ⟨h, by simp, ?_⟩
    intro a ha b hb
    simp only [List.mem_singleton] at hb
    subst hb
    have h1 := List.any_eq_false.mp hany' a ha
    simpa using h1

lemma savePricesLoopCount (sid : Nat) (failAt : Nat → Bool)
    (bars : List (Nat × PriceBar)) (st : List PriceRow × Nat) :
    (savePricesLoop sid failAt bars st).2 = st.2 + bars.countP (fun p => !failAt p.1) := by
  induction bars generalizing st with
  | nil => simp [savePricesLoop]
  | cons p t ih =>
      simp only [savePricesLoop, List.foldl_cons] at ih ⊢
      rw [List.countP_cons]
      by_cases h : failAt p.1
      · rw [if_pos h, ih st]
        simp [h]
      · rw [if_neg h, ih (upsertPriceRow st.1 (toPriceRow sid p.2), st.2 + 1)]
        simp [h]
        omega

lemma savePricesLoopNodup (sid : Nat) (failAt : Nat → Bool)
    (bars : List (Nat × PriceBar)) (st : List PriceRow × Nat)
    (h : PairwiseKeys st.1) :
    PairwiseKeys (savePricesLoop sid failAt bars st).1 := by
  induction bars generalizing st with
  | nil => simpa [savePricesLoop] using h
  | cons p t ih =>
      simp only [savePricesLoop, List.foldl_cons] at ih ⊢
      by_cases hf : failAt p.1
      · rw [if_pos hf]
        exact ih st h
      · rw [if_neg hf]
        exact ih (upsertPriceRow st.1 (toPriceRow sid p.2), st.2 + 1)
          (upsertNodup st.1 (toPriceRow sid p.2) h)

lemma lastMatchAux {α : Type} (q : α → Bool) (l : List α) (a0 : Option α) :
    l.foldl (fun acc x => if q x then some x else acc) a0 =
      match lastMatch l q with
      | some x => some x
      | none => a0 := by
  induction l generalizing a0 with
  | nil => simp [lastMatch]
  | cons a t ih =>
      simp only [lastMatch, List.foldl_cons] at ih ⊢
      by_cases h : q a
      · rw [if_pos h, if_pos h, ih (some a)]
        cases t.foldl (fun acc x => if q x then some x else acc) none <;> simp
      · rw [if_neg h, if_neg h, ih a0]

lemma savePricesLoopFindSelf (sid : Nat) (failAt : Nat → Bool)
    (bars : List (Nat × PriceBar)) (st : List PriceRow × Nat) (d : Int) :
    findPrice (savePricesLoop sid failAt bars st).1 sid d =
      match lastMatch bars (fun p => !failAt p.1 && p.2.date == d) with
      | some p => some (toPriceRow sid p.2)
      | none => findPrice st.1 sid d := by
  induction bars generalizing st with
  | nil => simp [savePricesLoop, lastMatch]
  | cons p t ih =>
      simp only [savePricesLoop, List.foldl_cons, lastMatch] at ih ⊢
      by_cases hf : failAt p.1
      · have hq : (!failAt p.1 && p.2.date == d) = false := by simp [hf]
        rw [if_pos hf]
        simp only [hq, Bool.false_eq_true, if_false]
        exact ih st
      · by_cases hd : p.2.date = d
        · have hq : (!failAt p.1 && p.2.date == d) = true := by simp [hf, hd]
          have hfind : findPrice (upsertPriceRow st.1 (toPriceRow sid p.2)) sid d
              = some (toPriceRow sid p.2) := by
            rw [upsertFind]
            simp [toPriceRow, priceKey, hd]
          rw [if_neg hf, ih (upsertPriceRow st.1 (toPriceRow sid p.2), st.2 + 1), hfind]
          simp only [hq, if_true]
          rw [lastMatchAux (fun p => !failAt p.1 && p.2.date == d) t (some p)]
          simp only [lastMatch]
          cases t.foldl
              (fun acc a => if (!failAt a.1 && a.2.date == d) then some a else acc)
              none <;> simp
        · have hq : (!failAt p.1 && p.2.date == d) = false := by simp [hd]
          have hfind : findPrice (upsertPriceRow st.1 (toPriceRow sid p.2)) sid d
              = findPrice st.1 sid d := by
            rw [upsertFind, if_neg]
            simp only [toPriceRow, priceKey, Prod.mk.injEq, not_and]
            exact fun _ hh => hd hh.symm
          rw [if_neg hf, ih (upsertPriceRow st.1 (toPriceRow sid p.2), st.2 + 1), hfind]
          simp only [hq, Bool.false_eq_true, if_false]

lemma savePricesLoopFindOther (sid : Nat) (failAt : Nat → Bool)
    (bars : List (Nat × PriceBar)) (st : List PriceRow × Nat)
    (sid2 : Nat) (d : Int) (h : sid2 ≠ sid) :
    findPrice (savePricesLoop sid failAt bars st).1 sid2 d = findPrice st.1 sid2 d := by
  induction bars generalizing st with
  | nil => simp [savePricesLoop]
  | cons p t ih =>
      simp only [savePricesLoop, List.foldl_cons] at ih ⊢
      by_cases hf : failAt p.1
      · rw [if_pos hf]
        exact ih st
      · rw [if_neg hf, ih (upsertPriceRow st.1 (toPriceRow sid p.2), st.2 + 1)]
        rw [upsertFind, if_neg]
        simp only [toPriceRow, priceKey, Prod.mk.injEq, not_and]
        exact fun hh => absurd hh h

lemma getOrCreatePrices (db : Database) (symbol : String) (name : Option String)
    (stock : StockRow) (db1 : Database)
    (h : get_or_create_stock db symbol name = .ok (stock, db1)) :
    db1.prices = db.prices := by
  unfold get_or_create_stock at h
  by_cases hs : pyStrip symbol = ""
  · simp [hs] at h
  · simp only [if_neg hs] at h
    cases hfind : db.stocks.find? (fun r => r.symbol = pyStrip (pyUpper symbol)) with
    | some row =>
        rw [hfind] at h
        simp only [Except.ok.injEq, Prod.mk.injEq] at h
        rw [← h.2]
    | none =>
        rw [hfind] at h
        simp only [Except.ok.injEq, Prod.mk.injEq] at h
        rw [← h.2]

/-- C7: `save_stock_prices` upserts each bar keyed by (stock_id, date) —
the key-uniqueness invariant of the stock_prices table is preserved, and
after the batch a key holds the values of the last successfully written
bar for that key (rows of other instruments and untouched dates are
unchanged); a bar whose write fails is skipped without aborting the rest of
the batch; and the returned count is exactly the number of successfully
written bars. -/
theorem c7_upsert_daily_bars (db : Database) (symbol : String) (bars : List PriceBar)
    (failAt : Nat → Bool) (stock : StockRow) (db1 : Database)
    (hsym : pyStrip symbol ≠ "")
    (hstock : get_or_create_stock db symbol none = .ok (stock, db1))
    (hnodup : PairwiseKeys db.prices) :
    (save_stock_prices db symbol bars failAt).2
        = bars.enum.countP (fun p => !failAt p.1)
    ∧ PairwiseKeys (save_stock_prices db symbol bars failAt).1.prices
    ∧ (∀ d : Int,
        findPrice (save_stock_prices db symbol bars failAt).1.prices stock.id d =
          match lastMatch bars.enum (fun p => !failAt p.1 && p.2.date == d) with
          | some p => some (toPriceRow stock.id p.2)
          | none => findPrice db.prices stock.id d)
    ∧ (∀ (sid : Nat) (d : Int), sid ≠ stock.id →
        findPrice (save_stock_prices db symbol bars failAt).1.prices sid d
          = findPrice db.prices sid d) := by
  by_cases hb : bars = []
  · subst hb
    refine ⟨by simp [save_stock_prices, hsym], ?_, ?_, ?_⟩
    · simpa [save_stock_prices, hsym] using hnodup
    · intro d
      simp [save_stock_prices, hsym, lastMatch]
    · intro sid d hsid
      simp [save_stock_prices, hsym]
  · have hprices : db1.prices = db.prices :=
      getOrCreatePrices db symbol none stock db1 hstock
    have hcond : ¬(pyStrip symbol = "" ∨ bars = []) := by
      push_neg
      exact ⟨hsym, hb⟩
    refine ⟨?_, ?_, ?_, ?_⟩
    · simp only [save_stock_prices, if_neg hcond, hstock]
      rw [savePricesLoopCount]
      simp
    · simp only [save_stock_prices, if_neg hcond, hstock]
      apply savePricesLoopNodup
      rw [hprices]
      exact hnodup
    · intro d
      simp only [save_stock_prices, if_neg hcond, hstock]
      rw [savePricesLoopFindSelf, hprices]
    · intro sid d hsid
      simp only [save_stock_prices, if_neg hcond, hstock]
      rw [savePricesLoopFindOther _ _ _ _ _ _ hsid, hprices]

/-- Witness for C7: saving the sample batch (with the day-6 write failing)
returns count 2, replaces the day-5 row with the latest close, leaves day 6
absent, and inserts the day-7 row. -/
theorem c7_witness :
    (save_stock_prices sampleDb "ACME" sampleBars (fun i => i == 1)).2 = 2
    ∧ findPrice (save_stock_prices sampleDb "ACME" sampleBars (fun i => i == 1)).1.prices 0 5
        = some ⟨0, 5, none, none, none, some 2, some 20⟩
    ∧ findPrice (save_stock_prices sampleDb "ACME" sampleBars (fun i => i == 1)).1.prices 0 6
        = none
    ∧ findPrice (save_stock_prices sampleDb "ACME" sampleBars (fun i => i == 1)).1.prices 0 7
        = some ⟨0, 7, none, none, none, some 4, some 40⟩ := by
  have h := c7_upsert_daily_bars sampleDb "ACME" sampleBars (fun i => i == 1)
    ⟨0, "ACME", none⟩ sampleDb (by decide) rfl (by simp [PairwiseKeys, sampleDb])
  refine ⟨?_, ?_, ?_, ?_⟩
  · rw [h.1]
    decide
  · rw [h.2.2.1 5]
    decide
  · rw [h.2.2.1 6]
    decide
  · rw [h.2.2.1 7]
    decide
